import Mathlib

set_option linter.unusedVariables false

/-! Byte-level utilities shared by the embeddings.  Buffers are lists of
byte values (`Nat`, each intended below 256). -/

/-- Bytes of a Lean string literal, one `Nat` per character codepoint.
Only used to write down concrete ASCII buffers in theorem statements. -/
def strBytes (s : String) : List Nat :=
  s.data.map Char.toNat

/-- Alias used where a declaration's namespace shadows `String`. -/
abbrev Str := String

/-- Alias used where a declaration's namespace shadows `List`. -/
abbrev Bytes := List Nat

/-- Is `b` a UTF-8 continuation byte (0x80..0xBF)? -/
def utf8Cont (b : Nat) : Bool :=
  128 ≤ b && b ≤ 191

/-- One UTF-8 decoding step: the decoded char (`none` on an invalid
sequence) and the number of bytes consumed; for an invalid sequence the
count is the length of the maximal valid prefix, at least one, matching
the substitution behaviour of Rust's string conversions. -/
def utf8DecodeOne : List Nat → Option Char × Nat
  | [] => (none, 1)
  | b0 :: rest =>
    if b0 ≤ 127 then (some (Char.ofNat b0), 1)
    else if 194 ≤ b0 && b0 ≤ 223 then
      match rest with
      | b1 :: _ =>
        if utf8Cont b1 then (some (Char.ofNat ((b0 - 192) * 64 + (b1 - 128))), 2)
        else (none, 1)
      | [] => (none, 1)
    else if 224 ≤ b0 && b0 ≤ 239 then
      match rest with
      | b1 :: rest1 =>
        let okB1 :=
          if b0 = 224 then 160 ≤ b1 && b1 ≤ 191
          else if b0 = 237 then 128 ≤ b1 && b1 ≤ 159
          else utf8Cont b1
        if okB1 then
          match rest1 with
          | b2 :: _ =>
            if utf8Cont b2 then
              (some (Char.ofNat ((b0 - 224) * 4096 + (b1 - 128) * 64 + (b2 - 128))), 3)
            else (none, 2)
          | [] => (none, 2)
        else (none, 1)
      | [] => (none, 1)
    else if 240 ≤ b0 && b0 ≤ 244 then
      match rest with
      | b1 :: rest1 =>
        let okB1 :=
          if b0 = 240 then 144 ≤ b1 && b1 ≤ 191
          else if b0 = 244 then 128 ≤ b1 && b1 ≤ 143
          else utf8Cont b1
        if okB1 then
          match rest1 with
          | b2 :: rest2 =>
            if utf8Cont b2 then
              match rest2 with
              | b3 :: _ =>
                if utf8Cont b3 then
                  (some (Char.ofNat
                    ((b0 - 240) * 262144 + (b1 - 128) * 4096 + (b2 - 128) * 64 + (b3 - 128))), 4)
                else (none, 3)
              | [] => (none, 3)
            else (none, 2)
          | [] => (none, 2)
        else (none, 1)
      | [] => (none, 1)
    else (none, 1)

/-- Strict UTF-8 decoding to a char list; the first argument is fuel
(one unit per decoded char suffices since every step consumes a byte). -/
def utf8Chars : Nat → List Nat → Option (List Char)
  | _, [] => some []
  | 0, _ :: _ => none
  | fuel + 1, l =>
    match utf8DecodeOne l with
    | (some c, n) => (utf8Chars fuel (l.drop n)).map (fun cs => c :: cs)
    | (none, _) => none

/-- Rust `std::str::from_utf8`, on byte lists. -/
def from_utf8 (l : List Nat) : Option String :=
  (utf8Chars l.length l).map String.mk

/-- Lossy UTF-8 decoding: invalid sequences become U+FFFD. -/
def utf8LossyChars : Nat → List Nat → List Char
  | _, [] => []
  | 0, _ :: _ => []
  | fuel + 1, l =>
    match utf8DecodeOne l with
    | (some c, n) => c :: utf8LossyChars fuel (l.drop n)
    | (none, n) => Char.ofNat 65533 :: utf8LossyChars fuel (l.drop n)

/-- Rust `String::from_utf8_lossy`, on byte lists. -/
def from_utf8_lossy (l : List Nat) : String :=
  String.mk (utf8LossyChars l.length l)

/-- Is `c` an ASCII decimal digit? -/
def isAsciiDigit (c : Char) : Bool :=
  48 ≤ c.toNat && c.toNat ≤ 57

/-- Accumulate decimal digits, most significant first. -/
def digitsToNat (ds : List Char) : Nat :=
  ds.foldl (fun a c => a * 10 + (c.toNat - 48)) 0

/-- Digit-run part of Rust `str::parse::<i64>`: requires at least one
digit, all ASCII decimal, and the signed value within the i64 range. -/
def parseI64Digits (sign : Int) (ds : List Char) : Option Int :=
  if ds = [] then none
  else if ds.all isAsciiDigit then
    let v : Int := sign * Int.ofNat (digitsToNat ds)
    if -(2 ^ 63) ≤ v ∧ v ≤ 2 ^ 63 - 1 then some v else none
  else none

/-- Rust `str::parse::<i64>`: optional sign, then decimal digits. -/
def parse_i64 (s : String) : Option Int :=
  match s.data with
  | [] => none
  | c :: rest =>
    if c = '-' then parseI64Digits (-1) rest
    else if c = '+' then parseI64Digits 1 rest
    else parseI64Digits 1 (c :: rest)

/-- UTF-8 encoding of one char (1-4 bytes). -/
def utf8EncodeChar (c : Char) : List Nat :=
  let n := c.toNat
  if n ≤ 127 then [n]
  else if n ≤ 2047 then [192 + n / 64, 128 + n % 64]
  else if n ≤ 65535 then [224 + n / 4096, 128 + n / 64 % 64, 128 + n % 64]
  else [240 + n / 262144, 128 + n / 4096 % 64, 128 + n / 64 % 64, 128 + n % 64]

/-- Rust `String::into_bytes` / `str::as_bytes`: UTF-8 bytes of a string. -/
def stringIntoBytes (s : String) : List Nat :=
  (s.data.map utf8EncodeChar).flatten

/-! Embedding of the stateful decoder `resp_stateful_codec` from
src/lib.rs.  Everything is translated from the source, including its
actual control flow on error paths; outcomes that panic in Rust
(`BytesMut::split_to`/`advance` out of bounds, `Vec::with_capacity`
overflow) are an explicit `panicked` outcome. -/

namespace resp_stateful_codec

inductive RedisValue where
  | SimpleString (s : String)
  | Error (s : String)
  | Integer (i : Int)
  | BulkString (b : Option (List Nat))
  | Array (a : Option (List RedisValue))

structure ArrayContext where
  rem : Int
  items : List RedisValue

inductive Op where
  | SimpleString
  | Error
  | Integer
  | BulkString
  | Array

structure RespDecoder where
  ptr : Nat
  cached_len : Option Int
  doing : Option Op
  stack : List ArrayContext

/-- `RespDecoder::default()`. -/
def RespDecoder.init : RespDecoder :=
  ⟨0, none, none, []⟩

/-- Outcome of a fallible decoding step: Rust `io::Result` plus the
decoder state and the remaining caller-owned buffer; `panicked` for
aborts, `outOfFuel` is a loop-embedding guard never reached with the
fuel used by `cached_decode`. -/
inductive DecResult (α : Type) where
  | ok (a : α) (st : RespDecoder) (buf : List Nat)
  | eof (st : RespDecoder) (buf : List Nat)
  | fatal (msg : String) (st : RespDecoder) (buf : List Nat)
  | panicked (msg : String)
  | outOfFuel

def DecResult.mapVal {α β : Type} (f : α → β) : DecResult α → DecResult β
  | .ok a st buf => .ok (f a) st buf
  | .eof st buf => .eof st buf
  | .fatal m st buf => .fatal m st buf
  | .panicked m => .panicked m
  | .outOfFuel => .outOfFuel

/-- Rust `i64 as usize` (two's-complement truncation mod 2^64). -/
def i64_as_usize (i : Int) : Nat :=
  (i % (2 ^ 64 : Int)).toNat

/-- `ArrayContext::new(len)`: `Vec::with_capacity(len as usize)` panics
when the requested capacity exceeds isize::MAX bytes
(size_of::<RedisValue>() = 32 on 64-bit targets); `none` models that
panic. -/
def ArrayContext.new (len : Int) : Option ArrayContext :=
  if 2 ^ 63 - 1 < i64_as_usize len * 32 then none
  else some { rem := len, items := [] }

def ArrayContext.push (ctx : ArrayContext) (item : RedisValue) : ArrayContext :=
  { ctx with items := ctx.items ++ [item], rem := ctx.rem - 1 }

def ArrayContext.is_complete (ctx : ArrayContext) : Bool :=
  ctx.rem == 0

/-- `RespDecoder::get_op`.  `src.split_to(1)` panics on an empty buffer
(its length assertion fails), so the `UnexpectedEof` arm of the source's
let-else is unreachable. -/
def get_op (st : RespDecoder) (buf : List Nat) : DecResult Op :=
  match buf with
  | [] => .panicked ("split_to out of bounds")
  | b :: rest =>
    if b = 43 then .ok .SimpleString st rest
    else if b = 45 then .ok .Error st rest
    else if b = 58 then .ok .Integer st rest
    else if b = 36 then .ok .BulkString st rest
    else if b = 42 then .ok .Array st rest
    else .fatal ("invalid prefix") st rest

inductive ScanOut where
  | found (p : Nat)
  | eofAt (p : Nat)
  | fatalAt (p : Nat)

/-- Scan loop of `RespDecoder::next_crlf`: checks `src.get(p..p+2)`
first (None means UnexpectedEof), then the 512 000 000 bound, then the
CRLF comparison.  Fuel only bounds the recursion; `buf.length + 2` units
always suffice since `p` grows by one per step and the loop stops once
`p + 2 > buf.length`. -/
def next_crlf_go (buf : List Nat) : Nat → Nat → ScanOut
  | p, 0 => .eofAt p
  | p, fuel + 1 =>
    if p + 2 ≤ buf.length then
      if 512000000 < p then .fatalAt p
      else if buf.getD p 0 = 13 ∧ buf.getD (p + 1) 0 = 10 then .found p
      else next_crlf_go buf (p + 1) fuel
    else .eofAt p

/-- `RespDecoder::next_crlf`.  On a match the source runs
`self.ptr = 0; return Ok(self.ptr)`: the cursor is cleared first, so the
returned index is always 0 regardless of where the CRLF was found. -/
def next_crlf (st : RespDecoder) (buf : List Nat) : DecResult Nat :=
  match next_crlf_go buf st.ptr (buf.length + 2) with
  | .eofAt p => .eof { st with ptr := p } buf
  | .fatalAt p => .fatal ("too long") { st with ptr := p } buf
  | .found _ =>
    let st1 := { st with ptr := 0 }
    .ok st1.ptr st1 buf

/-- `RespDecoder::inner_string`: split off `idx` bytes, check UTF-8
(failing before the terminator is consumed), then `advance(2)`. -/
def inner_string (st : RespDecoder) (buf : List Nat) : DecResult String :=
  match next_crlf st buf with
  | .ok idx st1 buf1 =>
    let window := buf1.take idx
    let buf2 := buf1.drop idx
    match from_utf8 window with
    | none => .fatal ("invalid utf8") st1 buf2
    | some s =>
      if 2 ≤ buf2.length then .ok s st1 (buf2.drop 2)
      else .panicked ("advance out of bounds")
  | .eof st1 buf1 => .eof st1 buf1
  | .fatal m st1 buf1 => .fatal m st1 buf1
  | .panicked m => .panicked m
  | .outOfFuel => .outOfFuel

/-- `RespDecoder::inner_i32` (which actually parses an i64). -/
def inner_i32 (st : RespDecoder) (buf : List Nat) : DecResult Int :=
  match next_crlf st buf with
  | .ok idx st1 buf1 =>
    let window := buf1.take idx
    let buf2 := buf1.drop idx
    match from_utf8 window with
    | none => .fatal ("invalid utf8") st1 buf2
    | some s =>
      match parse_i64 s with
      | none => .fatal ("invalid integer") st1 buf2
      | some n =>
        if 2 ≤ buf2.length then .ok n st1 (buf2.drop 2)
        else .panicked ("advance out of bounds")
  | .eof st1 buf1 => .eof st1 buf1
  | .fatal m st1 buf1 => .fatal m st1 buf1
  | .panicked m => .panicked m
  | .outOfFuel => .outOfFuel

def get_simple_string (st : RespDecoder) (buf : List Nat) : DecResult RedisValue :=
  (inner_string st buf).mapVal RedisValue.SimpleString

def get_error (st : RespDecoder) (buf : List Nat) : DecResult RedisValue :=
  (inner_string st buf).mapVal RedisValue.Error

def get_integer (st : RespDecoder) (buf : List Nat) : DecResult RedisValue :=
  (inner_i32 st buf).mapVal RedisValue.Integer

/-- Shared tail of `RespDecoder::get_bulk_string` once the length is
known: `if len > src.len() as i64` suspend, else clear the cache and
`split_to(len as usize)` (no terminator check, no `advance(2)`). -/
def bulk_with_len (len : Int) (st : RespDecoder) (buf : List Nat) : DecResult RedisValue :=
  if (buf.length : Int) < len then .eof st buf
  else
    let st1 := { st with cached_len := none }
    let u := i64_as_usize len
    if u ≤ buf.length then .ok (.BulkString (some (buf.take u))) st1 (buf.drop u)
    else .panicked ("split_to out of bounds")

/-- `RespDecoder::get_bulk_string`. -/
def get_bulk_string (st : RespDecoder) (buf : List Nat) : DecResult RedisValue :=
  match st.cached_len with
  | some len => bulk_with_len len st buf
  | none =>
    match inner_i32 st buf with
    | .ok len st1 buf1 =>
      if len = -1 then .ok (.BulkString none) st1 buf1
      else bulk_with_len len { st1 with cached_len := some len } buf1
    | .eof st1 buf1 => .eof st1 buf1
    | .fatal m st1 buf1 => .fatal m st1 buf1
    | .panicked m => .panicked m
    | .outOfFuel => .outOfFuel

/-- `RespDecoder::get_array`. -/
def get_array (st : RespDecoder) (buf : List Nat) : DecResult (Option ArrayContext) :=
  match inner_i32 st buf with
  | .ok len st1 buf1 =>
    if len = -1 then .ok none st1 buf1
    else
      match ArrayContext.new len with
      | none => .panicked ("capacity overflow")
      | some ctx => .ok (some ctx) st1 buf1
  | .eof st1 buf1 => .eof st1 buf1
  | .fatal m st1 buf1 => .fatal m st1 buf1
  | .panicked m => .panicked m
  | .outOfFuel => .outOfFuel

/-- Inner completion-propagation loop of `cached_decode`: pop the stack,
push the value; on a complete context convert it to an Array value and
repeat; on an incomplete one push it back and stop (`.inr` = the new
stack, meaning continue the outer loop). -/
def drain (stack : List ArrayContext) (val : RedisValue) : RedisValue ⊕ List ArrayContext :=
  match stack with
  | [] => .inl val
  | ctx :: rest =>
    let ctx1 := ctx.push val
    if ctx1.is_complete then drain rest (.Array (some ctx1.items))
    else .inr (ctx1 :: rest)

/-- Outer loop of `RespDecoder::cached_decode`.  Note the source's
array-push arm runs `continue` before `self.doing = None`, so `doing`
keeps `Op::Array` after a context is pushed. -/
def cached_decode_loop : Nat → RespDecoder → List Nat → DecResult RedisValue
  | 0, _, _ => .outOfFuel
  | fuel + 1, st, buf =>
    match st.doing with
    | none =>
      match get_op st buf with
      | .ok op st1 buf1 => cached_decode_loop fuel { st1 with doing := some op } buf1
      | .eof st1 buf1 => .eof st1 buf1
      | .fatal m st1 buf1 => .fatal m st1 buf1
      | .panicked m => .panicked m
      | .outOfFuel => .outOfFuel
    | some op =>
      let step : DecResult (RedisValue ⊕ ArrayContext) :=
        match op with
        | .SimpleString => (get_simple_string st buf).mapVal Sum.inl
        | .Error => (get_error st buf).mapVal Sum.inl
        | .Integer => (get_integer st buf).mapVal Sum.inl
        | .BulkString => (get_bulk_string st buf).mapVal Sum.inl
        | .Array =>
          match get_array st buf with
          | .ok none st1 buf1 => .ok (.inl (.Array none)) st1 buf1
          | .ok (some ctx) st1 buf1 =>
            if ctx.is_complete then .ok (.inl (.Array (some ctx.items))) st1 buf1
            else .ok (.inr ctx) st1 buf1
          | .eof st1 buf1 => .eof st1 buf1
          | .fatal m st1 buf1 => .fatal m st1 buf1
          | .panicked m => .panicked m
          | .outOfFuel => .outOfFuel
      match step with
      | .ok (.inr ctx) st1 buf1 =>
        cached_decode_loop fuel { st1 with stack := ctx :: st1.stack } buf1
      | .ok (.inl val) st1 buf1 =>
        let st2 := { st1 with doing := none }
        match drain st2.stack val with
        | .inl v => .ok v { st2 with stack := [] } buf1
        | .inr stack1 => cached_decode_loop fuel { st2 with stack := stack1 } buf1
      | .eof st1 buf1 => .eof st1 buf1
      | .fatal m st1 buf1 => .fatal m st1 buf1
      | .panicked m => .panicked m
      | .outOfFuel => .outOfFuel

/-- `RespDecoder::cached_decode`.  Every loop iteration either returns
or strictly decreases `2 * buf.length + (1 if doing is set)`, so
`2 * buf.length + 2` fuel units can never run out. -/
def cached_decode (st : RespDecoder) (buf : List Nat) : DecResult RedisValue :=
  cached_decode_loop (2 * buf.length + 2) st buf

/-- Outcome of `<RespDecoder as Decoder>::decode`. -/
inductive DecodeOut where
  | value (v : RedisValue) (st : RespDecoder) (buf : List Nat)
  | suspend (st : RespDecoder) (buf : List Nat)
  | error (msg : String) (st : RespDecoder) (buf : List Nat)
  | panicked (msg : String)
  | outOfFuel

/-- `impl Decoder for RespDecoder`: map `UnexpectedEof` to `Ok(None)`
(suspend), keep other errors. -/
def decode (st : RespDecoder) (buf : List Nat) : DecodeOut :=
  match cached_decode st buf with
  | .ok v st1 buf1 => .value v st1 buf1
  | .eof st1 buf1 => .suspend st1 buf1
  | .fatal m st1 buf1 => .error m st1 buf1
  | .panicked m => .panicked m
  | .outOfFuel => .outOfFuel

end resp_stateful_codec

/-! Embedding of the legacy `redis_protocol` module from src/lib.rs:
the loosely-typed value model and the pub/sub semantic translation
(`impl TryFrom<RedisValue> for PubSubEvent`). -/

namespace redis_protocol

inductive RedisValue where
  | String (data : List Nat)
  | Int (i : Int)
  | List (v : List RedisValue)
  | Ok (s : String)
  | Error (s : String)

/-- `RedisValue::as_str`. -/
def RedisValue.as_str : RedisValue → Str
  | .String data => from_utf8_lossy data
  | .Int i => toString i
  | .Ok s => s
  | .Error s => s
  | .List [] => ""
  | .List (vv :: _) => vv.as_str

/-- `RedisValue::take_buffer`: the raw bytes for a `String` value,
otherwise the UTF-8 bytes of `as_str`. -/
def RedisValue.take_buffer : RedisValue → Bytes
  | .String data => data
  | v => stringIntoBytes v.as_str

structure PubSubMessage where
  channel_name : String
  channel_pattern : Option String
  data : List Nat

inductive PubSubEvent where
  | Message (m : PubSubMessage)
  | Pong (s : String)
  | List (p : String × List RedisValue)
  | String (s : String)
  | Int (i : Int)
  | Ok (s : String)
  | Error (s : String)

/-- `impl TryFrom<RedisValue> for PubSubEvent`; `io::Error` payloads are
modelled by their message text (apostrophes elided). -/
def try_from : RedisValue → Except String PubSubEvent
  | .List v =>
    match v with
    | [] =>
      .error ("pubsub stream error - zero length list - capture stream with socat for bug report")
    | message_kind :: rest =>
      if message_kind.as_str = "message" then
        match rest with
        | rv_channel :: rv_data :: _ =>
          .ok (.Message ⟨rv_channel.as_str, none, rv_data.take_buffer⟩)
        | _ =>
          .error ("protocol error - message missing some parameters (expects channel, data)")
      else if message_kind.as_str = "pmessage" then
        match rest with
        | rv_pattern :: rv_channel :: rv_data :: _ =>
          .ok (.Message ⟨rv_channel.as_str, some rv_pattern.as_str, rv_data.take_buffer⟩)
        | _ =>
          .error ("protocol error - message missing some parameters (expects pattern, channel, data)")
      else if message_kind.as_str = "subscribe" then .ok (.List (("subscribe"), rest))
      else if message_kind.as_str = "unsubscribe" then .ok (.List (("unsubscribe"), rest))
      else .ok (.List (message_kind.as_str, rest))
  | .String v => .ok (.Pong (from_utf8_lossy v))
  | .Int v => .ok (.Int v)
  | .Ok v => if v = "PONG" then .ok (.Pong v) else .ok (.Ok v)
  | .Error v => .ok (.Error v)

end redis_protocol

/-! Model of the `resp` codec (`src/resp/mod.rs`).  The submodules
`resp::value`, `resp::encoder` and `resp::decoder` that `mod.rs`
declares are not present under src/, so the value model, the encoder
`resp_encode` and the decode entry point are modelled from the spec
(sections 3, 4.2, 4.5 and the wire-format table of section 6). -/

namespace resp

/-- Modelled from the spec: the Value model of the missing
`resp/value.rs` — a tagged union with explicit absent-vs-empty states
for bulk strings and arrays (spec section 3). -/
inductive RespValue where
  | SimpleString (s : String)
  | Error (s : String)
  | Integer (i : Int)
  | BulkString (b : Option (List Nat))
  | Array (a : Option (List RespValue))

/-- ASCII decimal digits of `n`, most significant first. -/
def natDigits (n : Nat) : List Nat :=
  if h : n < 10 then [48 + n]
  else natDigits (n / 10) ++ [48 + n % 10]
termination_by n
decreasing_by
  exact Nat.div_lt_self (by omega) (by omega)

/-- Wire bytes of a signed decimal integer. -/
def intBytes (i : Int) : List Nat :=
  if i < 0 then 45 :: natDigits i.natAbs
  else natDigits i.toNat

/-- The two-byte CRLF terminator. -/
def crlf : List Nat := [13, 10]

mutual

/-- Modelled from the spec: the encoder `resp_encode` of the missing
`resp/encoder.rs` — appends the exact wire format of the value (spec
sections 4.5 and 6): type byte, decimal header where applicable, CRLF
terminators, nested values concatenated. -/
def resp_encode : RespValue → List Nat
  | .SimpleString s => 43 :: (stringIntoBytes s ++ crlf)
  | .Error s => 45 :: (stringIntoBytes s ++ crlf)
  | .Integer i => 58 :: (intBytes i ++ crlf)
  | .BulkString none => 36 :: (intBytes (-1) ++ crlf)
  | .BulkString (some b) => 36 :: (intBytes (b.length : Int) ++ (crlf ++ (b ++ crlf)))
  | .Array none => 42 :: (intBytes (-1) ++ crlf)
  | .Array (some l) => 42 :: (intBytes (l.length : Int) ++ (crlf ++ encodeItems l))

/-- Concatenated encodings of array elements, in order. -/
def encodeItems : List RespValue → List Nat
  | [] => []
  | v :: vs => resp_encode v ++ encodeItems vs

end

/-- Find the first CRLF pair: the bytes strictly before it and the
bytes strictly after it. `none` is the not-found/suspend signal. -/
def splitLine : List Nat → Option (List Nat × List Nat)
  | [] => none
  | b :: rest =>
    if b = 13 ∧ rest.head? = some 10 then some ([], rest.tail)
    else
      match splitLine rest with
      | some (l, r) => some (b :: l, r)
      | none => none

/-- Are all bytes ASCII decimal digits? -/
def allDigitBytes (l : List Nat) : Bool :=
  l.all (fun b => 48 ≤ b && b ≤ 57)

/-- Decimal value of a digit-byte run, most significant first. -/
def digitBytesToNat (l : List Nat) : Nat :=
  l.foldl (fun a b => a * 10 + (b - 48)) 0

/-- Parse a signed decimal integer (i64 range) from raw line bytes
(spec section 4.2, read-integer-line). -/
def parseIntBytes (l : List Nat) : Option Int :=
  let core : Int → List Nat → Option Int := fun sign ds =>
    if ds.isEmpty then none
    else if allDigitBytes ds then
      let v : Int := sign * Int.ofNat (digitBytesToNat ds)
      if -(2 ^ 63) ≤ v ∧ v ≤ 2 ^ 63 - 1 then some v else none
    else none
  match l with
  | [] => none
  | b :: rest => if b = 45 then core (-1) rest else core 1 (b :: rest)

mutual

/-- Modelled from the spec: the value parser of the missing
`resp/decoder.rs` (spec section 4.4), phrased as a one-shot parser on
the complete buffer: read the tag byte, the CRLF-terminated header, then
the payload (bulk strings consume declared length + 2; arrays parse that
many nested values).  The fuel argument only bounds nesting; one unit
per nesting level suffices. -/
def parseValue : Nat → List Nat → Option (RespValue × List Nat)
  | 0, _ => none
  | _ + 1, [] => none
  | fuel + 1, b :: rest =>
    if b = 43 then
      match splitLine rest with
      | some (line, r) =>
        match from_utf8 line with
        | some s => some (.SimpleString s, r)
        | none => none
      | none => none
    else if b = 45 then
      match splitLine rest with
      | some (line, r) =>
        match from_utf8 line with
        | some s => some (.Error s, r)
        | none => none
      | none => none
    else if b = 58 then
      match splitLine rest with
      | some (line, r) =>
        match parseIntBytes line with
        | some i => some (.Integer i, r)
        | none => none
      | none => none
    else if b = 36 then
      match splitLine rest with
      | some (line, r) =>
        match parseIntBytes line with
        | some i =>
          if i = -1 then some (.BulkString none, r)
          else if i < 0 then none
          else
            let n := i.toNat
            if n + 2 ≤ r.length then
              match r.drop n with
              | 13 :: 10 :: r2 => some (.BulkString (some (r.take n)), r2)
              | _ => none
            else none
        | none => none
      | none => none
    else if b = 42 then
      match splitLine rest with
      | some (line, r) =>
        match parseIntBytes line with
        | some i =>
          if i = -1 then some (.Array none, r)
          else if i < 0 then none
          else
            match parseItems fuel i.toNat r with
            | some (items, r1) => some (.Array (some items), r1)
            | none => none
        | none => none
      | none => none
    else none
termination_by fuel l => (fuel, 0, 0)

/-- Parse `k` consecutive values (the elements of an array). -/
def parseItems : Nat → Nat → List Nat → Option (List RespValue × List Nat)
  | _, 0, r => some ([], r)
  | fuel, k + 1, r =>
    match parseValue fuel r with
    | some (v, r1) =>
      match parseItems fuel k r1 with
      | some (vs, r2) => some (v :: vs, r2)
      | none => none
    | none => none
termination_by fuel k r => (fuel, 1, k)

end

/-- Modelled from the spec: the decode entry point (`resume_decode`
behind `impl Decoder for RespCodec`), restricted to the successful
one-shot path the round-trip property quantifies over: parse one value
off the front of the buffer.  The buffer length bounds the nesting
depth, so it is always sufficient fuel. -/
def resp_decode (bs : List Nat) : Option (RespValue × List Nat) :=
  parseValue bs.length bs

/-- Wire-representable values (spec sections 3 and 4.5): simple and
error strings cannot embed a CR byte (the wire format cannot express one
before the terminator), integers and declared lengths fit in an i64. -/
inductive Representable : RespValue → Prop where
  | simpleString (s : String) : 13 ∉ stringIntoBytes s →
      Representable (.SimpleString s)
  | errorText (s : String) : 13 ∉ stringIntoBytes s →
      Representable (.Error s)
  | integer (i : Int) : -(2 ^ 63) ≤ i → i ≤ 2 ^ 63 - 1 →
      Representable (.Integer i)
  | bulkNull : Representable (.BulkString none)
  | bulkSome (b : List Nat) : (b.length : Int) ≤ 2 ^ 63 - 1 →
      Representable (.BulkString (some b))
  | arrayNull : Representable (.Array none)
  | arraySome (l : List RespValue) : (l.length : Int) ≤ 2 ^ 63 - 1 →
      (∀ v ∈ l, Representable v) → Representable (.Array (some l))

/-- Canonically-formed byte sequences: exact encodings of representable
values. -/
def Canonical (bs : List Nat) : Prop :=
  ∃ v, Representable v ∧ resp_encode v = bs

end resp

namespace resp_stateful_codec

/-- If no CRLF pair occurs at offsets 0..512000000 and the buffer holds
at least 512000003 bytes, the scan loop reaches offset 512000001 and
fails fatally there. -/
theorem next_crlf_go_fatal (buf : List Nat) :
    ∀ fuel p, p ≤ 512000001 → 512000003 ≤ buf.length →
      (∀ i, i ≤ 512000000 → ¬(buf.getD i 0 = 13 ∧ buf.getD (i + 1) 0 = 10)) →
      512000002 ≤ fuel + p →
      next_crlf_go buf p fuel = .fatalAt 512000001
  | 0, p, hp, hlen, hno, hfuel => by omega
  | fuel + 1, p, hp, hlen, hno, hfuel => by
    simp only [next_crlf_go]
    rw [if_pos (by omega)]
    by_cases hbig : 512000000 < p
    · rw [if_pos hbig]
      have : p = 512000001 := by omega
      rw [this]
    · rw [if_neg hbig]
      rw [if_neg (hno p (by omega))]
      exact next_crlf_go_fatal buf fuel (p + 1) (by omega) hlen hno (by omega)

/-- Lifting of `next_crlf_go_fatal` to `next_crlf`. -/
theorem next_crlf_fatal (st : RespDecoder) (buf : List Nat)
    (hp : st.ptr ≤ 512000001) (hlen : 512000003 ≤ buf.length)
    (hno : ∀ i, i ≤ 512000000 → ¬(buf.getD i 0 = 13 ∧ buf.getD (i + 1) 0 = 10)) :
    next_crlf st buf = .fatal ("too long") { st with ptr := 512000001 } buf := by
  unfold next_crlf
  rw [next_crlf_go_fatal buf (buf.length + 2) st.ptr hp hlen hno (by omega)]

/-- Lifting to `inner_string`. -/
theorem inner_string_fatal (st : RespDecoder) (buf : List Nat)
    (hp : st.ptr ≤ 512000001) (hlen : 512000003 ≤ buf.length)
    (hno : ∀ i, i ≤ 512000000 → ¬(buf.getD i 0 = 13 ∧ buf.getD (i + 1) 0 = 10)) :
    inner_string st buf = .fatal ("too long") { st with ptr := 512000001 } buf := by
  unfold inner_string
  rw [next_crlf_fatal st buf hp hlen hno]

/-- One loop iteration from the fresh state on a `+`-tagged buffer. -/
theorem loop_step_simple (f : Nat) (rest : List Nat) :
    cached_decode_loop (f + 1) ⟨0, none, none, []⟩ (43 :: rest) =
      cached_decode_loop f ⟨0, none, some .SimpleString, []⟩ rest := by
  simp [cached_decode_loop, get_op]

/-- One loop iteration with a simple-string read in progress on an
oversized unterminated buffer fails fatally. -/
theorem loop_simple_too_long (f : Nat) (buf : List Nat)
    (hlen : 512000003 ≤ buf.length)
    (hno : ∀ i, i ≤ 512000000 → ¬(buf.getD i 0 = 13 ∧ buf.getD (i + 1) 0 = 10)) :
    cached_decode_loop (f + 1) ⟨0, none, some .SimpleString, []⟩ buf =
      .fatal ("too long") ⟨512000001, none, some .SimpleString, []⟩ buf := by
  have h : inner_string ⟨0, none, some Op.SimpleString, []⟩ buf =
      .fatal ("too long") ⟨512000001, none, some Op.SimpleString, []⟩ buf :=
    inner_string_fatal ⟨0, none, some Op.SimpleString, []⟩ buf (by simp) hlen hno
  simp only [cached_decode_loop, get_simple_string, h, DecResult.mapVal]

/-- Lifting to a whole `decode` attempt on a simple-string frame. -/
theorem decode_too_long (rest : List Nat)
    (hlen : 512000003 ≤ rest.length)
    (hno : ∀ i, i ≤ 512000000 → ¬(rest.getD i 0 = 13 ∧ rest.getD (i + 1) 0 = 10)) :
    decode RespDecoder.init (43 :: rest) =
      .error ("too long") ⟨512000001, none, some .SimpleString, []⟩ rest := by
  unfold decode cached_decode
  rw [show 2 * (43 :: rest).length + 2 = 2 * rest.length + 3 + 1 from by
    simp [List.length_cons]; ring]
  rw [show RespDecoder.init = (⟨0, none, none, []⟩ : RespDecoder) from rfl]
  rw [loop_step_simple]
  rw [show (2 : Nat) * rest.length + 3 = 2 * rest.length + 2 + 1 from by ring]
  rw [loop_simple_too_long (2 * rest.length + 2) rest hlen hno]

/-- Scanning a buffer that starts with a CR-free line of at most
512000000 bytes followed by CRLF finds that CRLF: the scan loop reaches
offset `line.length` and matches there. -/
theorem next_crlf_go_header (line tail : List Nat) (hno : 13 ∉ line)
    (hbound : line.length ≤ 512000000) :
    ∀ fuel p, p ≤ line.length → line.length + 1 ≤ fuel + p →
      next_crlf_go (line ++ 13 :: 10 :: tail) p fuel = .found line.length
  | 0, p, hp, hfuel => by omega
  | fuel + 1, p, hp, hfuel => by
    simp only [next_crlf_go]
    rw [if_pos (by simp only [List.length_append, List.length_cons]; omega)]
    rw [if_neg (by omega : ¬ 512000000 < p)]
    by_cases heq : p = line.length
    · subst heq
      have hc : (line ++ 13 :: 10 :: tail).getD line.length 0 = 13 ∧
          (line ++ 13 :: 10 :: tail).getD (line.length + 1) 0 = 10 := by
        constructor
        · rw [List.getD_eq_getElem?_getD, List.getElem?_append_right (Nat.le_refl _)]
          rw [show line.length - line.length = 0 from by omega]
          simp
        · rw [List.getD_eq_getElem?_getD,
            List.getElem?_append_right (by omega : line.length ≤ line.length + 1)]
          rw [show line.length + 1 - line.length = 1 from by omega]
          simp
      rw [if_pos hc]
    · have hplt : p < line.length := by omega
      have h13 : (line ++ 13 :: 10 :: tail).getD p 0 ≠ 13 := by
        rw [List.getD_eq_getElem?_getD, List.getElem?_append_left hplt]
        rw [List.getElem?_eq_getElem hplt]
        simp only [Option.getD_some]
        intro he
        exact hno (he ▸ List.getElem_mem hplt)
      rw [if_neg (fun hc => h13 hc.1)]
      exact next_crlf_go_header line tail hno hbound fuel (p + 1) (by omega) (by omega)

/-- On such a buffer, `next_crlf` from cursor 0 succeeds — and, per the
source's `self.ptr = 0; return Ok(self.ptr)`, returns index 0. -/
theorem next_crlf_header (st : RespDecoder) (line tail : List Nat) (hno : 13 ∉ line)
    (hbound : line.length ≤ 512000000) (hp : st.ptr = 0) :
    next_crlf st (line ++ 13 :: 10 :: tail) =
      .ok 0 { st with ptr := 0 } (line ++ 13 :: 10 :: tail) := by
  unfold next_crlf
  rw [hp, next_crlf_go_header line tail hno hbound _ 0 (by omega)
    (by simp only [List.length_append, List.length_cons]; omega)]

/-- Consequently `inner_i32` always fails on such a buffer: the window
split off is `take 0 = []`, which never parses as an integer. -/
theorem inner_i32_header_fatal (st : RespDecoder) (line tail : List Nat) (hno : 13 ∉ line)
    (hbound : line.length ≤ 512000000) (hp : st.ptr = 0) :
    inner_i32 st (line ++ 13 :: 10 :: tail) =
      .fatal ("invalid integer") { st with ptr := 0 } (line ++ 13 :: 10 :: tail) := by
  unfold inner_i32
  rw [next_crlf_header st line tail hno hbound hp]
  rfl

/-- One loop iteration from the fresh state on a `*`-tagged buffer. -/
theorem loop_step_array (f : Nat) (rest : List Nat) :
    cached_decode_loop (f + 1) ⟨0, none, none, []⟩ (42 :: rest) =
      cached_decode_loop f ⟨0, none, some .Array, []⟩ rest := by
  simp [cached_decode_loop, get_op]

/-- One loop iteration from the fresh state on a `$`-tagged buffer. -/
theorem loop_step_bulk (f : Nat) (rest : List Nat) :
    cached_decode_loop (f + 1) ⟨0, none, none, []⟩ (36 :: rest) =
      cached_decode_loop f ⟨0, none, some .BulkString, []⟩ rest := by
  simp [cached_decode_loop, get_op]

/-- One loop iteration with an array header pending on a header-line
buffer fails fatally with "invalid integer". -/
theorem loop_array_header_fatal (f : Nat) (line tail : List Nat) (hno : 13 ∉ line)
    (hbound : line.length ≤ 512000000) :
    cached_decode_loop (f + 1) ⟨0, none, some .Array, []⟩ (line ++ 13 :: 10 :: tail) =
      .fatal ("invalid integer") ⟨0, none, some .Array, []⟩ (line ++ 13 :: 10 :: tail) := by
  have h := inner_i32_header_fatal ⟨0, none, some Op.Array, []⟩ line tail hno hbound rfl
  simp only [cached_decode_loop, get_array, h]

/-- One loop iteration with a bulk-string header pending on a
header-line buffer fails fatally with "invalid integer". -/
theorem loop_bulk_header_fatal (f : Nat) (line tail : List Nat) (hno : 13 ∉ line)
    (hbound : line.length ≤ 512000000) :
    cached_decode_loop (f + 1) ⟨0, none, some .BulkString, []⟩ (line ++ 13 :: 10 :: tail) =
      .fatal ("invalid integer") ⟨0, none, some .BulkString, []⟩ (line ++ 13 :: 10 :: tail) := by
  have h := inner_i32_header_fatal ⟨0, none, some Op.BulkString, []⟩ line tail hno hbound rfl
  simp only [cached_decode_loop, get_bulk_string, h, DecResult.mapVal]

/-- A whole `decode` attempt on a `*`-tagged frame whose header line is
CR-free fails with the typed fatal error "invalid integer". -/
theorem decode_array_header_fatal (line tail : List Nat) (hno : 13 ∉ line)
    (hbound : line.length ≤ 512000000) :
    decode RespDecoder.init (42 :: (line ++ 13 :: 10 :: tail)) =
      .error ("invalid integer") ⟨0, none, some .Array, []⟩ (line ++ 13 :: 10 :: tail) := by
  unfold decode cached_decode
  rw [show 2 * (42 :: (line ++ 13 :: 10 :: tail)).length + 2
      = 2 * (line ++ 13 :: 10 :: tail).length + 3 + 1 from by
    simp [List.length_cons]; ring]
  rw [show RespDecoder.init = (⟨0, none, none, []⟩ : RespDecoder) from rfl]
  rw [loop_step_array]
  rw [show (2 : Nat) * (line ++ 13 :: 10 :: tail).length + 3
      = 2 * (line ++ 13 :: 10 :: tail).length + 2 + 1 from by ring]
  rw [loop_array_header_fatal _ line tail hno hbound]

/-- A whole `decode` attempt on a `$`-tagged frame whose header line is
CR-free fails with the typed fatal error "invalid integer". -/
theorem decode_bulk_header_fatal (line tail : List Nat) (hno : 13 ∉ line)
    (hbound : line.length ≤ 512000000) :
    decode RespDecoder.init (36 :: (line ++ 13 :: 10 :: tail)) =
      .error ("invalid integer") ⟨0, none, some .BulkString, []⟩ (line ++ 13 :: 10 :: tail) := by
  unfold decode cached_decode
  rw [show 2 * (36 :: (line ++ 13 :: 10 :: tail)).length + 2
      = 2 * (line ++ 13 :: 10 :: tail).length + 3 + 1 from by
    simp [List.length_cons]; ring]
  rw [show RespDecoder.init = (⟨0, none, none, []⟩ : RespDecoder) from rfl]
  rw [loop_step_bulk]
  rw [show (2 : Nat) * (line ++ 13 :: 10 :: tail).length + 3
      = 2 * (line ++ 13 :: 10 :: tail).length + 2 + 1 from by ring]
  rw [loop_bulk_header_fatal _ line tail hno hbound]

end resp_stateful_codec

/-- The replicate-97 buffer contains no CR byte at any offset. -/
theorem getD_replicate_no_cr (n i : Nat) :
    (List.replicate n 97 : List Nat).getD i 0 ≠ 13 := by
  rcases Nat.lt_or_ge i n with h | h
  · rw [List.getD_eq_getElem?_getD, List.getElem?_replicate, if_pos h]
    simp
  · rw [List.getD_eq_getElem?_getD, List.getElem?_replicate, if_neg (by omega)]
    simp

section StatefulClaims

open resp_stateful_codec

/-- Claim C1 (code-bug evidence): the well-formed frame `:5\r\n` yields
no decoded Value at all.  One-shot decoding on a fresh decoder returns
the fatal error "invalid integer" (because `next_crlf` always returns
index 0, the integer window split off is empty), and the chunked feed
`:5` then append `\r\n` first suspends and then hits the same fatal
error, so chunking invariance over decoded Values cannot hold. -/
theorem claim_C1 :
    decode RespDecoder.init (strBytes (":5\r\n")) =
      .error ("invalid integer") ⟨0, none, some .Integer, []⟩ (strBytes ("5\r\n")) ∧
    decode RespDecoder.init (strBytes (":5")) =
      .suspend ⟨0, none, some .Integer, []⟩ (strBytes ("5")) ∧
    decode ⟨0, none, some .Integer, []⟩ (strBytes ("5\r\n")) =
      .error ("invalid integer") ⟨0, none, some .Integer, []⟩ (strBytes ("5\r\n")) :=
  ⟨rfl, rfl, rfl⟩

/-- Claim C3 (code-bug evidence): on buffer "ab\r\n" whose CRLF
terminator sits at offset 2, `next_crlf` returns `Ok(0)` (the cursor is
zeroed before being returned), not the terminator offset; the second
conjunct shows the (correct) resumption bookkeeping: exhausting "abc"
without a terminator suspends with the cursor stored at 2. -/
theorem claim_C3 :
    next_crlf RespDecoder.init (strBytes ("ab\r\n")) =
      .ok 0 RespDecoder.init (strBytes ("ab\r\n")) ∧
    next_crlf RespDecoder.init (strBytes ("abc")) =
      .eof ⟨2, none, none, []⟩ (strBytes ("abc")) :=
  ⟨rfl, rfl⟩

/-- Claim C4 (code-bug evidence): with no operation in progress and an
empty buffer, `decode` panics in `get_op` (`split_to(1)` on an empty
`BytesMut` fails its length assertion) instead of suspending. -/
theorem claim_C4 (st : RespDecoder) (h : st.doing = none) :
    decode st [] = .panicked ("split_to out of bounds") := by
  unfold decode cached_decode
  rw [show 2 * ([] : List Nat).length + 2 = 1 + 1 from by simp]
  simp only [cached_decode_loop, h, get_op]

/-- Witness for C4 at the fresh decoder state. -/
theorem claim_C4_witness :
    RespDecoder.init.doing = none ∧
    decode RespDecoder.init [] = .panicked ("split_to out of bounds") :=
  ⟨rfl, claim_C4 RespDecoder.init rfl⟩

/-- Claim C5 (code-bug evidence): with a cached declared length 2, the
decoder proceeds when only the 2 payload bytes are present (no
terminator anywhere), and when payload plus CRLF are present it consumes
exactly the 2 payload bytes, leaving the CRLF in the buffer — not the
declared length + 2. -/
theorem claim_C5 :
    get_bulk_string ⟨0, some 2, some .BulkString, []⟩ (strBytes ("ab")) =
      .ok (.BulkString (some (strBytes ("ab")))) ⟨0, none, some .BulkString, []⟩ [] ∧
    get_bulk_string ⟨0, some 2, some .BulkString, []⟩ (strBytes ("ab\r\n")) =
      .ok (.BulkString (some (strBytes ("ab")))) ⟨0, none, some .BulkString, []⟩
        (strBytes ("\r\n")) :=
  ⟨rfl, rfl⟩

/-- Claim C6 (code-bug evidence): all four absent/empty probe inputs
fail with the fatal error "invalid integer" instead of decoding to the
claimed values, because the length window handed to the integer parser
is always empty. -/
theorem claim_C6 :
    decode RespDecoder.init (strBytes ("$-1\r\n")) =
      .error ("invalid integer") ⟨0, none, some .BulkString, []⟩ (strBytes ("-1\r\n")) ∧
    decode RespDecoder.init (strBytes ("$0\r\n\r\n")) =
      .error ("invalid integer") ⟨0, none, some .BulkString, []⟩ (strBytes ("0\r\n\r\n")) ∧
    decode RespDecoder.init (strBytes ("*-1\r\n")) =
      .error ("invalid integer") ⟨0, none, some .Array, []⟩ (strBytes ("-1\r\n")) ∧
    decode RespDecoder.init (strBytes ("*0\r\n")) =
      .error ("invalid integer") ⟨0, none, some .Array, []⟩ (strBytes ("0\r\n")) :=
  ⟨rfl, rfl, rfl, rfl⟩

/-- Claim C7 (code-bug evidence): the nested-array probe fails at its
very first array header with the fatal error "invalid integer"; no
aggregate context is ever pushed. -/
theorem claim_C7 :
    decode RespDecoder.init (strBytes ("*1\r\n*1\r\n*1\r\n:5\r\n")) =
      .error ("invalid integer") ⟨0, none, some .Array, []⟩
        (strBytes ("1\r\n*1\r\n*1\r\n:5\r\n")) :=
  rfl

/-- Claim C8: scanning an unterminated frame past offset 512000000
aborts with the fatal error "too long", not a suspension — both at the
`next_crlf` scanner level (for any decoder state with the cursor at or
below the trigger offset) and for a whole `decode` attempt on a
simple-string frame. -/
theorem claim_C8 :
    (∀ (st : RespDecoder) (buf : List Nat), st.ptr ≤ 512000001 →
      512000003 ≤ buf.length →
      (∀ i, i ≤ 512000000 → ¬(buf.getD i 0 = 13 ∧ buf.getD (i + 1) 0 = 10)) →
      next_crlf st buf = .fatal ("too long") { st with ptr := 512000001 } buf) ∧
    (∀ rest : List Nat, 512000003 ≤ rest.length →
      (∀ i, i ≤ 512000000 → ¬(rest.getD i 0 = 13 ∧ rest.getD (i + 1) 0 = 10)) →
      decode RespDecoder.init (43 :: rest) =
        .error ("too long") ⟨512000001, none, some .SimpleString, []⟩ rest) :=
  ⟨next_crlf_fatal, decode_too_long⟩

/-- Witness for C8: a 512000003-byte buffer of letter bytes (no CR
anywhere) after a `+` tag makes decode fail fatally with "too long". -/
theorem claim_C8_witness :
    512000003 ≤ (List.replicate 512000003 97 : List Nat).length ∧
    (∀ i, i ≤ 512000000 →
      ¬((List.replicate 512000003 97 : List Nat).getD i 0 = 13 ∧
        (List.replicate 512000003 97 : List Nat).getD (i + 1) 0 = 10)) ∧
    decode RespDecoder.init (43 :: List.replicate 512000003 97) =
      .error ("too long") ⟨512000001, none, some .SimpleString, []⟩
        (List.replicate 512000003 97) := by
  have hlen : 512000003 ≤ (List.replicate 512000003 97 : List Nat).length := by
    rw [List.length_replicate]
  refine ⟨hlen, fun i _ hpair => getD_replicate_no_cr _ _ hpair.1, ?_⟩
  exact claim_C8.2 (List.replicate 512000003 97) hlen
    (fun i _ hpair => getD_replicate_no_cr _ _ hpair.1)

/-- Claim C10 counterexample: on `*-2\r\n` the decoder returns the typed
fatal error "invalid integer" — it does not panic (and does not
suspend), contradicting the claimed panic behaviour. -/
theorem claim_C10_counterexample :
    decode RespDecoder.init (strBytes ("*-2\r\n")) =
      .error ("invalid integer") ⟨0, none, some .Array, []⟩ (strBytes ("-2\r\n")) :=
  rfl

/-- Claim C10 (amended): for every array or bulk-string frame whose
header line is any CR-free byte run of at most 512000000 bytes before
its CRLF — which includes the decimal rendering of every count below
-1, such as "-2" or "-100" — the decoder returns the typed fatal error
"invalid integer" and in particular does not panic (and does not
suspend): the window handed to the integer parser is always empty, so
no count, negative or otherwise, ever reaches the cast/panic paths in
`ArrayContext::new` or `split_to` on any input of this class. -/
theorem claim_C10 :
    (∀ line tail : List Nat, 13 ∉ line → line.length ≤ 512000000 →
      decode RespDecoder.init (42 :: (line ++ 13 :: 10 :: tail)) =
        .error ("invalid integer") ⟨0, none, some .Array, []⟩ (line ++ 13 :: 10 :: tail) ∧
      ∀ m, decode RespDecoder.init (42 :: (line ++ 13 :: 10 :: tail)) ≠ .panicked m) ∧
    (∀ line tail : List Nat, 13 ∉ line → line.length ≤ 512000000 →
      decode RespDecoder.init (36 :: (line ++ 13 :: 10 :: tail)) =
        .error ("invalid integer") ⟨0, none, some .BulkString, []⟩ (line ++ 13 :: 10 :: tail) ∧
      ∀ m, decode RespDecoder.init (36 :: (line ++ 13 :: 10 :: tail)) ≠ .panicked m) := by
  constructor
  · intro line tail hno hbound
    have h := decode_array_header_fatal line tail hno hbound
    exact ⟨h, fun m hm => by rw [h] at hm; exact DecodeOut.noConfusion hm⟩
  · intro line tail hno hbound
    have h := decode_bulk_header_fatal line tail hno hbound
    exact ⟨h, fun m hm => by rw [h] at hm; exact DecodeOut.noConfusion hm⟩

/-- Witness for C10 at the claim's example inputs: the header line "-2"
(bytes 45, 50) is CR-free and short, and `*-2\r\n` and `$-2\r\n` decode
to the typed fatal error "invalid integer". -/
theorem claim_C10_witness :
    13 ∉ strBytes ("-2") ∧ (strBytes ("-2")).length ≤ 512000000 ∧
    decode RespDecoder.init (42 :: (strBytes ("-2") ++ 13 :: 10 :: [])) =
      .error ("invalid integer") ⟨0, none, some .Array, []⟩
        (strBytes ("-2") ++ 13 :: 10 :: []) ∧
    decode RespDecoder.init (36 :: (strBytes ("-2") ++ 13 :: 10 :: [])) =
      .error ("invalid integer") ⟨0, none, some .BulkString, []⟩
        (strBytes ("-2") ++ 13 :: 10 :: []) :=
  ⟨by decide, by decide,
    (claim_C10.1 (strBytes ("-2")) [] (by decide) (by decide)).1,
    (claim_C10.2 (strBytes ("-2")) [] (by decide) (by decide)).1⟩

end StatefulClaims

section TranslatorClaims

open redis_protocol

/-- Claim C9: translating a decoded list whose first element reads
"message" with both trailing fields present yields a Message with the
second element as channel, no pattern, and the third element's buffer as
payload; a zero-length list and a "message" tag with missing fields are
shape errors; the simple-string reply "PONG" translates to Pong, not
Ok. -/
theorem claim_C9 :
    (∀ (m c d : RedisValue) (rest : List RedisValue), m.as_str = ("message") →
      try_from (.List (m :: c :: d :: rest)) =
        .ok (.Message ⟨c.as_str, none, d.take_buffer⟩)) ∧
    try_from (.List []) =
      .error ("pubsub stream error - zero length list - capture stream with socat for bug report") ∧
    (∀ m : RedisValue, m.as_str = ("message") →
      try_from (.List [m]) =
        .error ("protocol error - message missing some parameters (expects channel, data)")) ∧
    (∀ m c : RedisValue, m.as_str = ("message") →
      try_from (.List [m, c]) =
        .error ("protocol error - message missing some parameters (expects channel, data)")) ∧
    try_from (.Ok ("PONG")) = .ok (.Pong ("PONG")) := by
  refine ⟨?_, rfl, ?_, ?_, rfl⟩
  · intro m c d rest hm
    simp [try_from, hm]
  · intro m hm
    simp [try_from, hm]
  · intro m c hm
    simp [try_from, hm]

/-- Witness for C9: the spec's probe message translates as claimed, and
PONG maps to Pong. -/
theorem claim_C9_witness :
    (RedisValue.String (strBytes ("message"))).as_str = ("message") ∧
    try_from (.List [.String (strBytes ("message")), .String (strBytes ("chanA")),
        .String (strBytes ("hello"))]) =
      .ok (.Message ⟨("chanA"), none, strBytes ("hello")⟩) :=
  ⟨rfl, claim_C9.1 (.String (strBytes ("message"))) (.String (strBytes ("chanA")))
    (.String (strBytes ("hello"))) [] rfl⟩

end TranslatorClaims

namespace resp

theorem natDigits_digits (n : Nat) : ∀ b ∈ natDigits n, 48 ≤ b ∧ b ≤ 57 := by
  induction n using Nat.strong_induction_on with
  | _ n ih =>
    rw [natDigits]
    split
    next h =>
      intro b hb
      simp only [List.mem_singleton] at hb
      omega
    next h =>
      intro b hb
      rcases List.mem_append.1 hb with hm | hm
      · exact ih (n / 10) (Nat.div_lt_self (by omega) (by omega)) b hm
      · simp only [List.mem_singleton] at hm
        omega

theorem natDigits_ne_nil (n : Nat) : natDigits n ≠ [] := by
  rw [natDigits]
  split
  · simp
  · simp

theorem digitBytesToNat_natDigits (n : Nat) : digitBytesToNat (natDigits n) = n := by
  induction n using Nat.strong_induction_on with
  | _ n ih =>
    rw [natDigits]
    split
    next h =>
      simp only [digitBytesToNat, List.foldl_cons, List.foldl_nil]
      omega
    next h =>
      have hdiv := ih (n / 10) (Nat.div_lt_self (by omega) (by omega))
      simp only [digitBytesToNat, List.foldl_append, List.foldl_cons, List.foldl_nil] at hdiv ⊢
      rw [hdiv]
      omega

theorem allDigitBytes_natDigits (n : Nat) : allDigitBytes (natDigits n) = true := by
  rw [allDigitBytes, List.all_eq_true]
  intro b hb
  have := natDigits_digits n b hb
  simp only [Bool.and_eq_true, decide_eq_true_eq]
  omega

theorem not_cr_mem_natDigits (n : Nat) : 13 ∉ natDigits n := by
  intro h
  have := natDigits_digits n 13 h
  omega

theorem not_cr_mem_intBytes (i : Int) : 13 ∉ intBytes i := by
  rw [intBytes]
  split
  · intro h
    rcases List.mem_cons.1 h with hm | hm
    · omega
    · exact not_cr_mem_natDigits _ hm
  · exact not_cr_mem_natDigits _

theorem intBytes_length_pos (i : Int) : 1 ≤ (intBytes i).length := by
  rw [intBytes]
  split
  · simp
  · have := natDigits_ne_nil i.toNat
    cases h : natDigits i.toNat with
    | nil => exact absurd h this
    | cons d ds => simp [h]

theorem parseIntBytes_natDigits_tail (sign : Int) (m : Nat) :
    (if (natDigits m).isEmpty then none
     else if allDigitBytes (natDigits m) then
       if -(2 ^ 63) ≤ sign * Int.ofNat (digitBytesToNat (natDigits m)) ∧
          sign * Int.ofNat (digitBytesToNat (natDigits m)) ≤ 2 ^ 63 - 1 then
         some (sign * Int.ofNat (digitBytesToNat (natDigits m)))
       else none
     else none) =
    (if -(2 ^ 63) ≤ sign * Int.ofNat m ∧ sign * Int.ofNat m ≤ 2 ^ 63 - 1 then
       some (sign * Int.ofNat m)
     else none) := by
  rw [digitBytesToNat_natDigits, allDigitBytes_natDigits]
  have hne := natDigits_ne_nil m
  cases h : natDigits m with
  | nil => exact absurd h hne
  | cons d ds => simp

theorem parseIntBytes_intBytes (i : Int) (h1 : -(2 ^ 63) ≤ i) (h2 : i ≤ 2 ^ 63 - 1) :
    parseIntBytes (intBytes i) = some i := by
  by_cases hneg : i < 0
  · rw [intBytes, if_pos hneg, parseIntBytes]
    simp only [if_pos rfl]
    have := parseIntBytes_natDigits_tail (-1) i.natAbs
    simp only [List.isEmpty_iff] at this ⊢
    rw [this]
    have habs : (-1 : Int) * Int.ofNat i.natAbs = i := by
      simp only [Int.ofNat_eq_coe]
      omega
    rw [habs]
    have hrange : -(2 ^ 63) ≤ i ∧ i ≤ 2 ^ 63 - 1 := ⟨h1, h2⟩
    rw [if_pos hrange]
    simp
  · rw [intBytes, if_neg hneg]
    have hd := natDigits_digits i.toNat
    have hne := natDigits_ne_nil i.toNat
    cases h : natDigits i.toNat with
    | nil => exact absurd h hne
    | cons d ds =>
      have hd48 : 48 ≤ d ∧ d ≤ 57 := hd d (h ▸ List.mem_cons_self d ds)
      rw [parseIntBytes]
      rw [if_neg (by omega : ¬ d = 45)]
      have := parseIntBytes_natDigits_tail 1 i.toNat
      rw [h] at this
      simp only [List.isEmpty_iff] at this ⊢
      rw [this]
      have htn : (1 : Int) * Int.ofNat i.toNat = i := by
        simp only [Int.ofNat_eq_coe]
        omega
      rw [htn]
      have hrange : -(2 ^ 63) ≤ i ∧ i ≤ 2 ^ 63 - 1 := ⟨h1, h2⟩
      rw [if_pos hrange]

theorem utf8DecodeOne_one (n : Nat) (h : n ≤ 127) (rest : List Nat) :
    utf8DecodeOne (n :: rest) = (some (Char.ofNat n), 1) := by
  simp only [utf8DecodeOne]
  rw [if_pos h]

theorem utf8DecodeOne_two (n : Nat) (hlo : 128 ≤ n) (hhi : n ≤ 2047) (rest : List Nat) :
    utf8DecodeOne ((192 + n / 64) :: (128 + n % 64) :: rest) =
      (some (Char.ofNat n), 2) := by
  simp only [utf8DecodeOne]
  rw [if_neg (by omega : ¬ 192 + n / 64 ≤ 127)]
  rw [if_pos (by simp only [Bool.and_eq_true, decide_eq_true_eq]; omega :
    (194 ≤ 192 + n / 64 && 192 + n / 64 ≤ 223) = true)]
  rw [if_pos (by simp only [utf8Cont, Bool.and_eq_true, decide_eq_true_eq]; omega :
    utf8Cont (128 + n % 64) = true)]
  rw [show (192 + n / 64 - 192) * 64 + (128 + n % 64 - 128) = n from by omega]

theorem utf8DecodeOne_three (n : Nat) (hlo : 2048 ≤ n) (hhi : n ≤ 65535)
    (hval : n < 55296 ∨ 57343 < n) (rest : List Nat) :
    utf8DecodeOne ((224 + n / 4096) :: (128 + n / 64 % 64) :: (128 + n % 64) :: rest) =
      (some (Char.ofNat n), 3) := by
  simp only [utf8DecodeOne]
  rw [if_neg (by omega : ¬ 224 + n / 4096 ≤ 127)]
  rw [if_neg (by simp only [Bool.and_eq_true, decide_eq_true_eq]; omega :
    ¬ (194 ≤ 224 + n / 4096 && 224 + n / 4096 ≤ 223) = true)]
  rw [if_pos (by simp only [Bool.and_eq_true, decide_eq_true_eq]; omega :
    (224 ≤ 224 + n / 4096 && 224 + n / 4096 ≤ 239) = true)]
  rw [if_pos (show (if 224 + n / 4096 = 224 then
        160 ≤ 128 + n / 64 % 64 && 128 + n / 64 % 64 ≤ 191
      else if 224 + n / 4096 = 237 then
        128 ≤ 128 + n / 64 % 64 && 128 + n / 64 % 64 ≤ 159
      else utf8Cont (128 + n / 64 % 64)) = true from by
    split
    next => simp only [Bool.and_eq_true, decide_eq_true_eq]; omega
    next =>
      split
      next => simp only [Bool.and_eq_true, decide_eq_true_eq]; omega
      next => simp only [utf8Cont, Bool.and_eq_true, decide_eq_true_eq]; omega)]
  rw [if_pos (by simp only [utf8Cont, Bool.and_eq_true, decide_eq_true_eq]; omega :
    utf8Cont (128 + n % 64) = true)]
  rw [show (224 + n / 4096 - 224) * 4096 + (128 + n / 64 % 64 - 128) * 64 +
      (128 + n % 64 - 128) = n from by omega]

theorem utf8DecodeOne_four (n : Nat) (hlo : 65536 ≤ n) (hhi : n ≤ 1114111) (rest : List Nat) :
    utf8DecodeOne ((240 + n / 262144) :: (128 + n / 4096 % 64) ::
      (128 + n / 64 % 64) :: (128 + n % 64) :: rest) =
      (some (Char.ofNat n), 4) := by
  simp only [utf8DecodeOne]
  rw [if_neg (by omega : ¬ 240 + n / 262144 ≤ 127)]
  rw [if_neg (by simp only [Bool.and_eq_true, decide_eq_true_eq]; omega :
    ¬ (194 ≤ 240 + n / 262144 && 240 + n / 262144 ≤ 223) = true)]
  rw [if_neg (by simp only [Bool.and_eq_true, decide_eq_true_eq]; omega :
    ¬ (224 ≤ 240 + n / 262144 && 240 + n / 262144 ≤ 239) = true)]
  rw [if_pos (by simp only [Bool.and_eq_true, decide_eq_true_eq]; omega :
    (240 ≤ 240 + n / 262144 && 240 + n / 262144 ≤ 244) = true)]
  rw [if_pos (show (if 240 + n / 262144 = 240 then
        144 ≤ 128 + n / 4096 % 64 && 128 + n / 4096 % 64 ≤ 191
      else if 240 + n / 262144 = 244 then
        128 ≤ 128 + n / 4096 % 64 && 128 + n / 4096 % 64 ≤ 143
      else utf8Cont (128 + n / 4096 % 64)) = true from by
    split
    next => simp only [Bool.and_eq_true, decide_eq_true_eq]; omega
    next =>
      split
      next => simp only [Bool.and_eq_true, decide_eq_true_eq]; omega
      next => simp only [utf8Cont, Bool.and_eq_true, decide_eq_true_eq]; omega)]
  rw [if_pos (by simp only [utf8Cont, Bool.and_eq_true, decide_eq_true_eq]; omega :
    utf8Cont (128 + n / 64 % 64) = true)]
  rw [if_pos (by simp only [utf8Cont, Bool.and_eq_true, decide_eq_true_eq]; omega :
    utf8Cont (128 + n % 64) = true)]
  rw [show (240 + n / 262144 - 240) * 262144 + (128 + n / 4096 % 64 - 128) * 4096 +
      (128 + n / 64 % 64 - 128) * 64 + (128 + n % 64 - 128) = n from by omega]

theorem utf8DecodeOne_encodeChar (c : Char) (rest : List Nat) :
    utf8DecodeOne (utf8EncodeChar c ++ rest) = (some c, (utf8EncodeChar c).length) := by
  have hval : c.toNat < 55296 ∨ (57343 < c.toNat ∧ c.toNat < 1114112) := c.valid
  have hofn := Char.ofNat_toNat c
  by_cases h1 : c.toNat ≤ 127
  · rw [show utf8EncodeChar c = [c.toNat] from by
      simp only [utf8EncodeChar]; rw [if_pos h1]]
    rw [List.cons_append, List.nil_append, utf8DecodeOne_one c.toNat h1 rest, hofn]
    rfl
  · by_cases h2 : c.toNat ≤ 2047
    · rw [show utf8EncodeChar c = [192 + c.toNat / 64, 128 + c.toNat % 64] from by
        simp only [utf8EncodeChar]; rw [if_neg h1, if_pos h2]]
      rw [List.cons_append, List.cons_append, List.nil_append,
        utf8DecodeOne_two c.toNat (by omega) h2 rest, hofn]
      rfl
    · by_cases h3 : c.toNat ≤ 65535
      · rw [show utf8EncodeChar c =
            [224 + c.toNat / 4096, 128 + c.toNat / 64 % 64, 128 + c.toNat % 64] from by
          simp only [utf8EncodeChar]; rw [if_neg h1, if_neg h2, if_pos h3]]
        rw [List.cons_append, List.cons_append, List.cons_append, List.nil_append,
          utf8DecodeOne_three c.toNat (by omega) h3
            (by rcases hval with h | ⟨h, _⟩; exacts [Or.inl h, Or.inr h]) rest, hofn]
        rfl
      · rw [show utf8EncodeChar c = [240 + c.toNat / 262144, 128 + c.toNat / 4096 % 64,
            128 + c.toNat / 64 % 64, 128 + c.toNat % 64] from by
          simp only [utf8EncodeChar]; rw [if_neg h1, if_neg h2, if_neg h3]]
        rw [List.cons_append, List.cons_append, List.cons_append, List.cons_append,
          List.nil_append,
          utf8DecodeOne_four c.toNat (by omega) (by omega) rest, hofn]
        rfl

theorem utf8EncodeChar_cons (c : Char) : ∃ d ds, utf8EncodeChar c = d :: ds := by
  simp only [utf8EncodeChar]
  split_ifs
  all_goals exact ⟨_, _, rfl⟩

theorem utf8EncodeChar_length_pos (c : Char) : 1 ≤ (utf8EncodeChar c).length := by
  obtain ⟨d, ds, h⟩ := utf8EncodeChar_cons c
  simp [h]

theorem length_le_flatten_encode (cs : List Char) :
    cs.length ≤ ((cs.map utf8EncodeChar).flatten).length := by
  induction cs with
  | nil => simp
  | cons c cs ih =>
    simp only [List.map_cons, List.flatten_cons, List.length_append, List.length_cons]
    have := utf8EncodeChar_length_pos c
    omega

theorem utf8Chars_encode : ∀ (g : Nat) (cs : List Char), cs.length ≤ g →
    utf8Chars g ((cs.map utf8EncodeChar).flatten) = some cs
  | _, [], _ => by simp [utf8Chars]
  | 0, c :: cs, h => by simp at h
  | g + 1, c :: cs, h => by
    obtain ⟨d, ds, hds⟩ := utf8EncodeChar_cons c
    simp only [List.map_cons, List.flatten_cons]
    rw [hds, List.cons_append, utf8Chars, ← List.cons_append, ← hds,
      utf8DecodeOne_encodeChar c]
    · simp only [List.drop_left]
      rw [utf8Chars_encode g cs (by simpa using h)]
      rfl
    · simp

theorem from_utf8_stringIntoBytes (s : String) :
    from_utf8 (stringIntoBytes s) = some s := by
  cases s with
  | mk data =>
    rw [from_utf8, stringIntoBytes]
    rw [utf8Chars_encode _ data (length_le_flatten_encode data)]
    rfl

theorem splitLine_append (pre rest : List Nat) (h : 13 ∉ pre) :
    splitLine (pre ++ 13 :: 10 :: rest) = some (pre, rest) := by
  induction pre with
  | nil =>
    rw [List.nil_append, splitLine]
    rw [if_pos ⟨rfl, rfl⟩]
    rfl
  | cons b pre ih =>
    have hb : ¬ b = 13 := fun e => h (e ▸ List.mem_cons_self b pre)
    rw [List.cons_append, splitLine]
    rw [if_neg (fun hc => hb hc.1)]
    rw [ih (fun hm => h (List.mem_cons_of_mem _ hm))]

theorem length_le_encodeItems (v : RespValue) : ∀ (l : List RespValue), v ∈ l →
    (resp_encode v).length ≤ (encodeItems l).length
  | [], h => absurd h (List.not_mem_nil v)
  | w :: ws, h => by
    rw [encodeItems]
    rcases List.mem_cons.1 h with rfl | hm
    · simp [List.length_append]
    · have := length_le_encodeItems v ws hm
      simp only [List.length_append]
      omega

theorem parse_items_encode : ∀ (l : List RespValue) (g : Nat),
    (∀ v ∈ l, ∀ (g1 : Nat) (rest1 : List Nat), (resp_encode v).length ≤ g1 →
      parseValue g1 (resp_encode v ++ rest1) = some (v, rest1)) →
    (∀ v ∈ l, (resp_encode v).length ≤ g) →
    ∀ rest : List Nat, parseItems g l.length (encodeItems l ++ rest) = some (l, rest)
  | [], g, _, _, rest => by
    rw [encodeItems, List.nil_append]
    rw [show ([] : List RespValue).length = 0 from rfl]
    rw [parseItems]
  | v :: vs, g, ih, hg, rest => by
    have h1 := ih v (List.mem_cons_self v vs) g (encodeItems vs ++ rest)
      (hg v (List.mem_cons_self v vs))
    have h2 := parse_items_encode vs g
      (fun w hw => ih w (List.mem_cons_of_mem _ hw))
      (fun w hw => hg w (List.mem_cons_of_mem _ hw)) rest
    simp only [encodeItems, List.append_assoc, List.length_cons, parseItems, h1, h2]

theorem parse_encode (v : RespValue) (hv : Representable v) :
    ∀ (g : Nat) (rest : List Nat), (resp_encode v).length ≤ g →
      parseValue g (resp_encode v ++ rest) = some (v, rest) := by
  induction hv with
  | simpleString s hs =>
    intro g rest hg
    cases g with
    | zero => rw [resp_encode] at hg; simp at hg
    | succ g =>
      have hsplit := splitLine_append (stringIntoBytes s) rest hs
      have hutf := from_utf8_stringIntoBytes s
      simp only [resp_encode, crlf, List.cons_append, List.nil_append, List.append_assoc,
        parseValue, reduceIte, hsplit, hutf]
  | errorText s hs =>
    intro g rest hg
    cases g with
    | zero => rw [resp_encode] at hg; simp at hg
    | succ g =>
      have hsplit := splitLine_append (stringIntoBytes s) rest hs
      have hutf := from_utf8_stringIntoBytes s
      simp only [resp_encode, crlf, List.cons_append, List.nil_append, List.append_assoc,
        parseValue, reduceIte, hsplit, hutf]
      norm_num
  | integer i h1 h2 =>
    intro g rest hg
    cases g with
    | zero => rw [resp_encode] at hg; simp at hg
    | succ g =>
      have hsplit := splitLine_append (intBytes i) rest (not_cr_mem_intBytes i)
      have hparse := parseIntBytes_intBytes i h1 h2
      simp only [resp_encode, crlf, List.cons_append, List.nil_append, List.append_assoc,
        parseValue, reduceIte, hsplit, hparse]
      norm_num
  | bulkNull =>
    intro g rest hg
    cases g with
    | zero => rw [resp_encode] at hg; simp at hg
    | succ g =>
      have hsplit := splitLine_append (intBytes (-1)) rest (not_cr_mem_intBytes (-1))
      have hparse := parseIntBytes_intBytes (-1) (by norm_num) (by norm_num)
      simp only [resp_encode, crlf, List.cons_append, List.nil_append, List.append_assoc,
        parseValue, reduceIte, hsplit, hparse]
      norm_num
  | bulkSome b hb =>
    intro g rest hg
    cases g with
    | zero => rw [resp_encode] at hg; simp at hg
    | succ g =>
      have hsplit := splitLine_append (intBytes (b.length : Int)) (b ++ 13 :: 10 :: rest)
        (not_cr_mem_intBytes _)
      have hparse := parseIntBytes_intBytes (b.length : Int) (by omega) hb
      simp only [resp_encode, crlf, List.cons_append, List.nil_append, List.append_assoc,
        parseValue, reduceIte, hsplit, hparse]
      rw [if_neg (by omega : ¬ (b.length : Int) = -1)]
      rw [if_neg (by omega : ¬ (b.length : Int) < 0)]
      simp only [Int.toNat_natCast]
      rw [if_pos (by simp only [List.length_append, List.length_cons]; omega :
        b.length + 2 ≤ (b ++ 13 :: 10 :: rest).length)]
      simp only [List.drop_left, List.take_left]
      norm_num
  | arrayNull =>
    intro g rest hg
    cases g with
    | zero => rw [resp_encode] at hg; simp at hg
    | succ g =>
      have hsplit := splitLine_append (intBytes (-1)) rest (not_cr_mem_intBytes (-1))
      have hparse := parseIntBytes_intBytes (-1) (by norm_num) (by norm_num)
      simp only [resp_encode, crlf, List.cons_append, List.nil_append, List.append_assoc,
        parseValue, reduceIte, hsplit, hparse]
      norm_num
  | arraySome l hlen helems ih =>
    intro g rest hg
    cases g with
    | zero => rw [resp_encode] at hg; simp at hg
    | succ g =>
      have hsplit := splitLine_append (intBytes (l.length : Int)) (encodeItems l ++ rest)
        (not_cr_mem_intBytes _)
      have hparse := parseIntBytes_intBytes (l.length : Int) (by omega) hlen
      have hglen : ∀ w ∈ l, (resp_encode w).length ≤ g := by
        intro w hw
        have hmem := length_le_encodeItems w l hw
        have hpos := intBytes_length_pos (l.length : Int)
        rw [resp_encode] at hg
        simp only [crlf, List.length_cons, List.length_append] at hg
        omega
      have hitems := parse_items_encode l g ih hglen rest
      simp only [resp_encode, crlf, List.cons_append, List.nil_append, List.append_assoc,
        parseValue, reduceIte, hsplit, hparse]
      norm_num
      rw [if_neg (by omega : ¬ (l.length : Int) = -1)]
      rw [if_neg (by omega : ¬ (l.length : Int) < 0)]
      simp only [Int.toNat_natCast, hitems]

theorem decode_encode_aux (v : RespValue) (hv : Representable v) :
    resp_decode (resp_encode v) = some (v, []) := by
  have := parse_encode v hv (resp_encode v).length [] (Nat.le_refl _)
  rw [List.append_nil] at this
  exact this

end resp

section ModelClaims

open resp

/-- Claim C2 (spec-modelled): round-trip of the resp codec model.  For
every representable value, decoding its encoding yields the value back
with the whole encoding consumed; and every canonically-formed byte
sequence (the encoding of some representable value) decodes to a value
that re-encodes to exactly those bytes. -/
theorem claim_C2 :
    (∀ v, Representable v → resp_decode (resp_encode v) = some (v, [])) ∧
    (∀ bs, Canonical bs → ∃ v, resp_decode bs = some (v, []) ∧ resp_encode v = bs) := by
  refine ⟨fun v hv => decode_encode_aux v hv, ?_⟩
  rintro bs ⟨v, hv, rfl⟩
  exact ⟨v, decode_encode_aux v hv, rfl⟩

/-- Witness for C2: a concrete nested value (array of integer, null
bulk string and simple string) round-trips. -/
theorem claim_C2_witness :
    Representable (.Array (some [.Integer 5, .BulkString none, .SimpleString ("OK")])) ∧
    resp_decode (resp_encode (RespValue.Array (some [.Integer 5, .BulkString none,
        .SimpleString ("OK")]))) =
      some (.Array (some [.Integer 5, .BulkString none, .SimpleString ("OK")]), []) := by
  have hrep : Representable (RespValue.Array (some [.Integer 5, .BulkString none,
      .SimpleString ("OK")])) := by
    refine .arraySome _ (by decide) ?_
    intro w hw
    simp only [List.mem_cons, List.not_mem_nil, or_false] at hw
    rcases hw with rfl | rfl | rfl
    · exact .integer 5 (by decide) (by decide)
    · exact .bulkNull
    · exact .simpleString _ (by decide)
  exact ⟨hrep, claim_C2.1 _ hrep⟩

end ModelClaims
